import Mathlib

/-!
Shallow embedding of the attribute resolution, codec and CRUD payload logic of
the `terraform-provider-jira-assets` object resource
(`internal/provider/object_resource.go`, package `provider`).

Modelling conventions:
* Go pointers that the code dereferences without a nil check are embedded as
  `Option`; a `none` result of a function models a Go runtime panic
  (nil-pointer dereference or index-out-of-range).
* Go `(T, error)` return pairs are embedded as `Except String T`.
* Go slices are Lean `List`s; the Go `map[string]string` built by `Read` is an
  association list with overwrite-on-existing-key semantics (`goMapSet`).
* Only the struct fields the embedded functions touch are carried; the
  remaining fields of the `go-atlassian` model structs are never read by this
  code.
-/

/-- One `(ID, Name)` entry of the status lookup table
(`StatusTypeMetadata` in the provider). -/
structure StatusTypeMetadata where
  ID : String
  Name : String
deriving DecidableEq

/-- `models.ObjectTypeScheme`, restricted to the two fields the provider
reads: `Id` and `Name`. The Go zero value has both fields `""`. -/
structure ObjectTypeScheme where
  Id : String
  Name : String
deriving DecidableEq

/-- `models.ObjectTypeAttributeScheme`, restricted to the fields the provider
reads.  `ObjectType` is a pointer in Go, hence `Option`; the Go zero value has
`ObjectType == nil`, i.e. `none`.  The Go field `Type` (an `int`) is embedded
as `typeCode` because `Type` is reserved in Lean. -/
structure ObjectTypeAttributeScheme where
  ID : String
  ObjectType : Option ObjectTypeScheme
  Name : String
  typeCode : Int
deriving DecidableEq

/-- `models.StatusScheme`, restricted to `ID`. -/
structure StatusScheme where
  ID : String
deriving DecidableEq

/-- `models.ObjectAttributeValueScheme`, restricted to the fields read by
`getAttributeValue`.  `Status` is a pointer in Go, hence `Option`. -/
structure ObjectAttributeValueScheme where
  Value : String
  SearchValue : String
  Status : Option StatusScheme
deriving DecidableEq

/-- `models.ObjectAttributeScheme`: one attribute record returned by the
remote attribute listing. -/
structure ObjectAttributeScheme where
  ObjectTypeAttribute : ObjectTypeAttributeScheme
  ObjectAttributeValues : List ObjectAttributeValueScheme
deriving DecidableEq

/-- `models.ObjectPayloadAttributeValueScheme`, restricted to `Value`. -/
structure ObjectPayloadAttributeValueScheme where
  Value : String
deriving DecidableEq

/-- `models.ObjectPayloadAttributeScheme`: one attribute record of an outgoing
create/update payload. -/
structure ObjectPayloadAttributeScheme where
  ObjectTypeAttributeID : String
  ObjectAttributeValues : List ObjectPayloadAttributeValueScheme
deriving DecidableEq

/-- `models.ObjectPayloadScheme`: the body of a remote create/update call. -/
structure ObjectPayloadScheme where
  ObjectTypeID : String
  Attributes : List ObjectPayloadAttributeScheme
  HasAvatar : Bool
  AvatarUUID : String
deriving DecidableEq

/-- `models.ObjectScheme`, restricted to the fields `Read` copies into state.
`ObjectType` is dereferenced by `Read` for its `Name`. -/
structure ObjectScheme where
  WorkspaceId : String
  GlobalId : String
  ID : String
  Label : String
  ObjectKey : String
  Created : String
  Updated : String
  HasAvatar : Bool
  ObjectType : ObjectTypeScheme
deriving DecidableEq

/-- The Terraform resource model `objectResourceModel`.  The Go field `Type`
is embedded as `TypeName`; the attribute map is an association list. -/
structure objectResourceModel where
  WorkspaceId : String
  GlobalId : String
  Id : String
  Label : String
  ObjectKey : String
  Created : String
  Updated : String
  HasAvatar : Bool
  TypeName : String
  Attributes : List (String × String)
  AvatarUuid : String
deriving DecidableEq

/-- The per-resource configuration held by `objectResource` (the fields used
by the embedded operations). -/
structure objectResource where
  workspaceId : String
  ignoreKeys : List String
  objectSchemaTypes : List ObjectTypeScheme
  objectSchemaAttributes : List ObjectTypeAttributeScheme
  configStatusType : List StatusTypeMetadata
deriving DecidableEq

/-- A remote call issued by a lifecycle operation, used to state which remote
requests the client-side code decides to send. -/
inductive RemoteCall where
  | createReq (workspaceId : String) (payload : ObjectPayloadScheme)
  | updateReq (workspaceId : String) (id : String) (payload : ObjectPayloadScheme)
  | deleteReq (workspaceId : String) (id : String)
deriving DecidableEq

/-- `getObjectTypeByName`: linear scan of the object-type list, returning the
first entry whose `Name` matches, else the Go zero value. -/
def getObjectTypeByName (objName : String) : List ObjectTypeScheme → ObjectTypeScheme
  | [] => { Id := "", Name := "" }
  | obj :: rest =>
    if obj.Name == objName then obj else getObjectTypeByName objName rest

/-- The Go zero value of `models.ObjectTypeAttributeScheme` (nil `ObjectType`
pointer, empty strings, `Type` field `0`). -/
def zeroTypeAttribute : ObjectTypeAttributeScheme :=
  { ID := "", ObjectType := none, Name := "", typeCode := 0 }

/-- `getObjectAttributeByName`: linear scan with the short-circuit condition
`obj.Name == objName && obj.ObjectType.Name == objectType`.  When an entry's
`Name` matches but its `ObjectType` pointer is nil, Go dereferences nil and
panics: modelled as `none`.  Otherwise returns the first full match, else the
zero value. -/
def getObjectAttributeByName (objName : String) (objectType : String) :
    List ObjectTypeAttributeScheme → Option ObjectTypeAttributeScheme
  | [] => some zeroTypeAttribute
  | obj :: rest =>
    if obj.Name == objName then
      match obj.ObjectType with
      | none => none
      | some t =>
        if t.Name == objectType then some obj
        else getObjectAttributeByName objName objectType rest
    else getObjectAttributeByName objName objectType rest

/-- `getConfigStatusIDByName`: first entry whose `Name` matches yields its
`ID`; otherwise an error listing every status name.  (The Go loop accumulates
the `Name` of each visited entry; the error is only reached after visiting the
whole list, so the message joins all names.) -/
def getConfigStatusIDByName (status : String) (statusType : List StatusTypeMetadata) :
    Except String String :=
  match statusType.find? (fun st => st.Name == status) with
  | some st => Except.ok st.ID
  | none =>
    Except.error ("unknown status, available statuses: " ++
      String.intercalate "," (statusType.map StatusTypeMetadata.Name))

/-- `getConfigStatusNameByID`: first entry whose `ID` matches yields its
`Name`; otherwise the empty string. -/
def getConfigStatusNameByID (id : String) (statusType : List StatusTypeMetadata) : String :=
  match statusType.find? (fun st => st.ID == id) with
  | some st => st.Name
  | none => ""

/-- `getAttributeValue`: decode one remote attribute record to a string by its
type code.  Cases 1, 0 and 7 index `ObjectAttributeValues[0]` (panic on an
empty list, modelled `none`); case 7 additionally dereferences the value's
`Status` pointer (panic when nil).  Any other code returns the
unsupported-type error without touching the value list. -/
def getAttributeValue (attr : ObjectAttributeScheme) (statusType : List StatusTypeMetadata) :
    Option (Except String String) :=
  match attr.ObjectTypeAttribute.typeCode with
  | 1 =>
    match attr.ObjectAttributeValues with
    | [] => none
    | v :: _ => some (Except.ok v.SearchValue)
  | 0 =>
    match attr.ObjectAttributeValues with
    | [] => none
    | v :: _ => some (Except.ok v.Value)
  | 7 =>
    match attr.ObjectAttributeValues with
    | [] => none
    | v :: _ =>
      match v.Status with
      | none => none
      | some s => some (Except.ok (getConfigStatusNameByID s.ID statusType))
  | t => some (Except.error ("unsupported attribute type: " ++ toString t))

/-- `returnAttributePayloadValue`: resolve the attribute definition, translate
a status name to its ID when the definition's type code is 7, and build one
payload record keyed by the resolved definition's `ID` with a single value.
`none` models the panic propagated from `getObjectAttributeByName`. -/
def returnAttributePayloadValue (name : String) (value : String) (objectType : String)
    (objectSchemaAttributes : List ObjectTypeAttributeScheme)
    (statusType : List StatusTypeMetadata) :
    Option (Except String ObjectPayloadAttributeScheme) :=
  match getObjectAttributeByName name objectType objectSchemaAttributes with
  | none => none
  | some attrSchema =>
    if attrSchema.typeCode == 7 then
      match getConfigStatusIDByName value statusType with
      | Except.error e => some (Except.error e)
      | Except.ok val =>
        some (Except.ok
          { ObjectTypeAttributeID := attrSchema.ID
            ObjectAttributeValues := [{ Value := val }] })
    else
      some (Except.ok
        { ObjectTypeAttributeID := attrSchema.ID
          ObjectAttributeValues := [{ Value := value }] })

/-- The attribute-encoding loop shared by `Create` and `Update`: encode each
planned `(name, value)` pair in order, aborting on the first encode error
(the Go code returns from the handler before any remote call in that case). -/
def buildAttributes (elements : List (String × String)) (objectTypeName : String)
    (defs : List ObjectTypeAttributeScheme) (statusType : List StatusTypeMetadata) :
    Option (Except String (List ObjectPayloadAttributeScheme)) :=
  match elements with
  | [] => some (Except.ok [])
  | (k, v) :: rest =>
    match returnAttributePayloadValue k v objectTypeName defs statusType with
    | none => none
    | some (Except.error e) => some (Except.error e)
    | some (Except.ok p) =>
      match buildAttributes rest objectTypeName defs statusType with
      | none => none
      | some (Except.error e) => some (Except.error e)
      | some (Except.ok ps) => some (Except.ok (p :: ps))

/-- The remote calls `Create` decides to issue, given the plan: resolve the
object type (the Go code binds it once as `object_type_id`), encode every
planned attribute, and on success issue exactly one create call carrying the
payload; on an encode error issue nothing. -/
def createRemoteCalls (r : objectResource) (plan : objectResourceModel) :
    Option (List RemoteCall) :=
  match buildAttributes plan.Attributes
      (getObjectTypeByName plan.TypeName r.objectSchemaTypes).Name
      r.objectSchemaAttributes r.configStatusType with
  | none => none
  | some (Except.error _) => some []
  | some (Except.ok attrs) =>
    some [RemoteCall.createReq r.workspaceId
      { ObjectTypeID := (getObjectTypeByName plan.TypeName r.objectSchemaTypes).Id
        Attributes := attrs
        HasAvatar := plan.HasAvatar
        AvatarUUID := plan.AvatarUuid }]

/-- The remote calls `Update` decides to issue: same encode path as `Create`,
then exactly one update call; never a delete. -/
def updateRemoteCalls (r : objectResource) (plan : objectResourceModel) :
    Option (List RemoteCall) :=
  match buildAttributes plan.Attributes
      (getObjectTypeByName plan.TypeName r.objectSchemaTypes).Name
      r.objectSchemaAttributes r.configStatusType with
  | none => none
  | some (Except.error _) => some []
  | some (Except.ok attrs) =>
    some [RemoteCall.updateReq r.workspaceId plan.Id
      { ObjectTypeID := (getObjectTypeByName plan.TypeName r.objectSchemaTypes).Id
        Attributes := attrs
        HasAvatar := plan.HasAvatar
        AvatarUUID := plan.AvatarUuid }]

/-- Go map assignment `m[k] = v`: overwrite the entry when the key is already
present, otherwise add it. -/
def goMapSet (m : List (String × String)) (k v : String) : List (String × String) :=
  if m.any (fun p => p.1 == k) then
    m.map (fun p => if p.1 == k then (k, v) else p)
  else
    m ++ [(k, v)]

/-- The Go string component of a `(string, error)` pair: `getAttributeValue`
returns `""` alongside its error, and `Read` assigns that string while
discarding the error. -/
def goValue : Except String String → String
  | Except.ok s => s
  | Except.error _ => ""

/-- The attribute-map rebuild loop of `Read`: for each remote record whose
name is not in `["Created","Key","Updated"] ++ ignoreKeys`, assign
`attributes[name] = value` where the error of `getAttributeValue` is
discarded (an error contributes the empty string).  A panic inside
`getAttributeValue` propagates (`none`). -/
def readAttributesLoop (ignoreKeys : List String) (statusType : List StatusTypeMetadata) :
    List ObjectAttributeScheme → List (String × String) → Option (List (String × String))
  | [], m => some m
  | attr :: rest, m =>
    if (["Created", "Key", "Updated"] ++ ignoreKeys).contains attr.ObjectTypeAttribute.Name then
      readAttributesLoop ignoreKeys statusType rest m
    else
      match getAttributeValue attr statusType with
      | none => none
      | some res =>
        readAttributesLoop ignoreKeys statusType rest
          (goMapSet m attr.ObjectTypeAttribute.Name (goValue res))

/-- The attribute map `Read` rebuilds from the remote attribute listing,
starting from the empty map. -/
def readAttributes (attrs : List ObjectAttributeScheme) (ignoreKeys : List String)
    (statusType : List StatusTypeMetadata) : Option (List (String × String)) :=
  readAttributesLoop ignoreKeys statusType attrs []

/-- The state `Read` produces from a successful object fetch and attribute
listing: the attribute map is rebuilt and `WorkspaceId`, `GlobalId`, `Id`,
`Label`, `ObjectKey`, `HasAvatar` and `Type` are overwritten from the remote
object.  (`Created` and `Updated` are not assigned by the Go code.) -/
def readResult (r : objectResource) (state : objectResourceModel) (object : ObjectScheme)
    (attrs : List ObjectAttributeScheme) : Option objectResourceModel :=
  match readAttributes attrs r.ignoreKeys r.configStatusType with
  | none => none
  | some m =>
    some { state with
      Attributes := m
      WorkspaceId := object.WorkspaceId
      GlobalId := object.GlobalId
      Id := object.ID
      Label := object.Label
      ObjectKey := object.ObjectKey
      HasAvatar := object.HasAvatar
      TypeName := object.ObjectType.Name }

/-- Modelled from the spec: the remote system is not part of this repository,
so the read-back record for a freshly written payload attribute is modelled as
the record that carries the payload's single value in every representation
slot (raw value, search value, status ID).  Used only to state the
decode-after-encode round trips of the spec. -/
def remoteEchoRecord (d : ObjectTypeAttributeScheme) (p : ObjectPayloadAttributeScheme) :
    ObjectAttributeScheme :=
  { ObjectTypeAttribute := d
    ObjectAttributeValues :=
      p.ObjectAttributeValues.map (fun v => { Value := v.Value, SearchValue := v.Value, Status := some { ID := v.Value } }) }

/-- The full match condition of `getObjectAttributeByName` as a total
predicate: name matches and the (non-nil) owning object type's name matches. -/
def attrMatches (objName : String) (objectType : String) (d : ObjectTypeAttributeScheme) : Bool :=
  d.Name == objName &&
    (match d.ObjectType with
     | some t => t.Name == objectType
     | none => false)

/-- Concrete object type used by the witnesses: the `"Host"` type of the
spec's scenario. -/
def hostType : ObjectTypeScheme := { Id := "t1", Name := "Host" }

/-- The `"Status"` attribute definition of the scenario (type code 7). -/
def hostStatusAttr : ObjectTypeAttributeScheme :=
  { ID := "42", ObjectType := some hostType, Name := "Status", typeCode := 7 }

/-- A plain text attribute definition (type code 0). -/
def hostIpAttr : ObjectTypeAttributeScheme :=
  { ID := "43", ObjectType := some hostType, Name := "external_ips", typeCode := 0 }

/-- The cached attribute definitions of the scenario. -/
def hostDefs : List ObjectTypeAttributeScheme := [hostStatusAttr, hostIpAttr]

/-- The status lookup table of the spec's scenario. -/
def statusTable : List StatusTypeMetadata :=
  [{ ID := "1", Name := "Enabled" }, { ID := "2", Name := "Disabled" }]

/-- A status table with two entries sharing one ID. -/
def dupStatusTable : List StatusTypeMetadata :=
  [{ ID := "1", Name := "A" }, { ID := "1", Name := "B" }]

/-- A concrete resource configuration over the scenario schema. -/
def hostResource : objectResource :=
  { workspaceId := "ws"
    ignoreKeys := ["CI Class"]
    objectSchemaTypes := [hostType]
    objectSchemaAttributes := hostDefs
    configStatusType := statusTable }

/-- A plan whose single attribute name resolves to no definition. -/
def unresolvedPlan : objectResourceModel :=
  { WorkspaceId := "", GlobalId := "", Id := "obj1", Label := "", ObjectKey := ""
    Created := "", Updated := "", HasAvatar := false, TypeName := "Host"
    Attributes := [("nonexistent", "x")], AvatarUuid := "" }

/-- A plan with two resolvable attributes. -/
def statusPlan : objectResourceModel :=
  { WorkspaceId := "", GlobalId := "", Id := "obj1", Label := "", ObjectKey := ""
    Created := "", Updated := "", HasAvatar := false, TypeName := "Host"
    Attributes := [("Status", "Enabled"), ("external_ips", "1.2.3.4")], AvatarUuid := "" }

/-- A remote attribute record with an unsupported type code (5) and no
values: decoding it errors without reading the value list. -/
def badRecord : ObjectAttributeScheme :=
  { ObjectTypeAttribute := { ID := "9", ObjectType := some hostType, Name := "X", typeCode := 5 }
    ObjectAttributeValues := [] }

/-- A status-typed record whose first value has a nil `Status` pointer. -/
def nilStatusRecord : ObjectAttributeScheme :=
  { ObjectTypeAttribute := hostStatusAttr
    ObjectAttributeValues := [{ Value := "v", SearchValue := "sv", Status := none }] }

/-- A well-formed text record for the `external_ips` attribute. -/
def ipRecord : ObjectAttributeScheme :=
  { ObjectTypeAttribute := hostIpAttr
    ObjectAttributeValues := [{ Value := "1.2.3.4", SearchValue := "1.2.3.4", Status := none }] }

/-- A remote record named `Created`, which `Read` must always exclude. -/
def createdRecord : ObjectAttributeScheme :=
  { ObjectTypeAttribute := { ID := "50", ObjectType := some hostType, Name := "Created", typeCode := 0 }
    ObjectAttributeValues := [{ Value := "ts", SearchValue := "ts", Status := none }] }

/-- A remote record whose name is in the configured ignore-keys of
`hostResource`. -/
def ciRecord : ObjectAttributeScheme :=
  { ObjectTypeAttribute := { ID := "51", ObjectType := some hostType, Name := "CI Class", typeCode := 0 }
    ObjectAttributeValues := [{ Value := "c", SearchValue := "c", Status := none }] }

/-- Prior state whose `Created`/`Updated` differ from the remote object's. -/
def staleState : objectResourceModel :=
  { WorkspaceId := "", GlobalId := "", Id := "obj1", Label := "", ObjectKey := ""
    Created := "oldC", Updated := "oldU", HasAvatar := false, TypeName := ""
    Attributes := [], AvatarUuid := "" }

/-- The remote object returned by the fetch in `Read`. -/
def freshObject : ObjectScheme :=
  { WorkspaceId := "ws", GlobalId := "g", ID := "obj1", Label := "lab", ObjectKey := "key"
    Created := "newC", Updated := "newU", HasAvatar := true, ObjectType := hostType }

/-- The state `Read` produces from `staleState` and `freshObject` with an
empty remote attribute list: every copied field is refreshed, while `Created`
and `Updated` keep their prior values. -/
def readStaleResult : objectResourceModel :=
  { WorkspaceId := "ws", GlobalId := "g", Id := "obj1", Label := "lab", ObjectKey := "key"
    Created := "oldC", Updated := "oldU", HasAvatar := true, TypeName := "Host"
    Attributes := [], AvatarUuid := "" }

/-- `getObjectTypeByName` is the first-match lookup with a zero-value
default. -/
theorem getObjectTypeByName_eq_find (objName : String) (schema : List ObjectTypeScheme) :
    getObjectTypeByName objName schema =
      (schema.find? (fun o => o.Name == objName)).getD { Id := "", Name := "" } := by
  induction schema with
  | nil => rfl
  | cons obj rest ih =>
    cases h : (obj.Name == objName) with
    | true => simp [getObjectTypeByName, List.find?_cons, h]
    | false => simp [getObjectTypeByName, List.find?_cons, h, ih]

/-- When no entry's `Name` matches, `getObjectAttributeByName` runs off the
end of the list and returns the Go zero value. -/
theorem getObjectAttributeByName_no_name_match (objName objectType : String)
    (defs : List ObjectTypeAttributeScheme) (h : ∀ d ∈ defs, d.Name ≠ objName) :
    getObjectAttributeByName objName objectType defs = some zeroTypeAttribute := by
  induction defs with
  | nil => rfl
  | cons d rest ih =>
    have hd : (d.Name == objName) = false := beq_eq_false_iff_ne.mpr (h d (by simp))
    simpa [getObjectAttributeByName, hd] using ih (fun x hx => h x (List.mem_cons_of_mem d hx))

/-- When every entry whose `Name` matches carries a non-nil `ObjectType`,
`getObjectAttributeByName` does not panic and is the first-match lookup for
`attrMatches` with a zero-value default. -/
theorem getObjectAttributeByName_eq_find (objName objectType : String)
    (defs : List ObjectTypeAttributeScheme)
    (h : ∀ d ∈ defs, d.Name = objName → d.ObjectType ≠ none) :
    getObjectAttributeByName objName objectType defs =
      some ((defs.find? (attrMatches objName objectType)).getD zeroTypeAttribute) := by
  induction defs with
  | nil => rfl
  | cons d rest ih =>
    have hrest := ih (fun x hx hn => h x (List.mem_cons_of_mem d hx) hn)
    cases hname : (d.Name == objName) with
    | false =>
      have hm : attrMatches objName objectType d = false := by
        simp [attrMatches, hname]
      simp [getObjectAttributeByName, hname, List.find?_cons, hm, hrest]
    | true =>
      obtain ⟨t, ht⟩ : ∃ t, d.ObjectType = some t := by
        cases hot : d.ObjectType with
        | none => exact absurd hot (h d (by simp) (beq_iff_eq.mp hname))
        | some t => exact ⟨t, rfl⟩
      cases htn : (t.Name == objectType) with
      | true =>
        have hm : attrMatches objName objectType d = true := by
          simp [attrMatches, hname, ht, htn]
        simp [getObjectAttributeByName, hname, ht, htn, List.find?_cons, hm]
      | false =>
        have hm : attrMatches objName objectType d = false := by
          simp [attrMatches, hname, ht, htn]
        simp [getObjectAttributeByName, hname, ht, htn, List.find?_cons, hm, hrest]

/-- A successful encode resolved a definition and produced one record keyed by
its ID, carrying a single value. -/
theorem returnAttributePayloadValue_ok_spec {name value objectType : String}
    {defs : List ObjectTypeAttributeScheme} {st : List StatusTypeMetadata}
    {p : ObjectPayloadAttributeScheme}
    (h : returnAttributePayloadValue name value objectType defs st = some (Except.ok p)) :
    ∃ d, getObjectAttributeByName name objectType defs = some d ∧
      p.ObjectTypeAttributeID = d.ID ∧ p.ObjectAttributeValues.length = 1 := by
  unfold returnAttributePayloadValue at h
  cases hl : getObjectAttributeByName name objectType defs with
  | none => rw [hl] at h; simp at h
  | some d =>
    rw [hl] at h
    dsimp only at h
    refine ⟨d, rfl, ?_⟩
    by_cases h7 : (d.typeCode == 7)
    · rw [if_pos h7] at h
      cases hs : getConfigStatusIDByName value st with
      | error e => rw [hs] at h; simp at h
      | ok val =>
        rw [hs] at h
        simp only [Option.some.injEq, Except.ok.injEq] at h
        subst h
        simp
    · rw [if_neg h7] at h
      simp only [Option.some.injEq, Except.ok.injEq] at h
      subst h
      simp

/-- A successful attribute-encoding loop produced one payload record per
planned pair, in order, each keyed by the resolved definition's ID with a
single value. -/
theorem buildAttributes_ok_forall2 {elements : List (String × String)} {objectTypeName : String}
    {defs : List ObjectTypeAttributeScheme} {st : List StatusTypeMetadata}
    {attrs : List ObjectPayloadAttributeScheme}
    (h : buildAttributes elements objectTypeName defs st = some (Except.ok attrs)) :
    List.Forall₂ (fun (kv : String × String) (a : ObjectPayloadAttributeScheme) => ∃ d,
        getObjectAttributeByName kv.1 objectTypeName defs = some d ∧
        a.ObjectTypeAttributeID = d.ID ∧ a.ObjectAttributeValues.length = 1)
      elements attrs := by
  induction elements generalizing attrs with
  | nil =>
    unfold buildAttributes at h
    simp only [Option.some.injEq, Except.ok.injEq] at h
    subst h
    exact List.Forall₂.nil
  | cons kv rest ih =>
    obtain ⟨k, v⟩ := kv
    unfold buildAttributes at h
    cases hr : returnAttributePayloadValue k v objectTypeName defs st with
    | none => rw [hr] at h; simp at h
    | some r =>
      rw [hr] at h
      cases r with
      | error e => simp at h
      | ok p =>
        dsimp only at h
        cases hb : buildAttributes rest objectTypeName defs st with
        | none => rw [hb] at h; simp at h
        | some rb =>
          rw [hb] at h
          cases rb with
          | error e => simp at h
          | ok ps =>
            simp only [Option.some.injEq, Except.ok.injEq] at h
            subst h
            exact List.Forall₂.cons (returnAttributePayloadValue_ok_spec hr) (ih hb)

/-- Go map assignment adds the written key and otherwise leaves the key set
unchanged. -/
theorem goMapSet_keys_mem (m : List (String × String)) (k v k' : String) :
    k' ∈ (goMapSet m k v).map Prod.fst ↔ (k' = k ∨ k' ∈ m.map Prod.fst) := by
  unfold goMapSet
  by_cases h : m.any (fun p => p.1 == k)
  · rw [if_pos h]
    have hfst : ∀ p : String × String,
        Prod.fst (if p.1 == k then (k, v) else p) = p.1 := by
      intro p
      by_cases hp : (p.1 == k)
      · simp [hp, (beq_iff_eq.mp hp).symm]
      · simp [hp]
    have hk : k ∈ m.map Prod.fst := by
      rcases List.any_eq_true.mp h with ⟨p, hp, hpk⟩
      exact List.mem_map.mpr ⟨p, hp, beq_iff_eq.mp hpk⟩
    have hkeys : (m.map (fun p => if p.1 == k then (k, v) else p)).map Prod.fst
        = m.map Prod.fst := by
      rw [List.map_map]
      exact List.map_congr_left (fun p _ => hfst p)
    rw [hkeys]
    constructor
    · exact Or.inr
    · rintro (rfl | hm)
      · exact hk
      · exact hm
  · rw [if_neg h]
    simp [or_comm]

/-- The key set produced by the `Read` attribute loop: the accumulated keys
plus every non-ignored remote attribute name. -/
theorem readAttributesLoop_keys (ign : List String) (st : List StatusTypeMetadata) :
    ∀ (attrs : List ObjectAttributeScheme) (m out : List (String × String)),
    readAttributesLoop ign st attrs m = some out →
    ∀ k, k ∈ out.map Prod.fst ↔
      (k ∈ m.map Prod.fst ∨
       (k ∈ attrs.map (fun a => a.ObjectTypeAttribute.Name) ∧
        k ∉ (["Created", "Key", "Updated"] ++ ign))) := by
  intro attrs
  induction attrs with
  | nil =>
    intro m out h k
    unfold readAttributesLoop at h
    simp only [Option.some.injEq] at h
    subst h
    simp
  | cons a rest ih =>
    intro m out h k
    unfold readAttributesLoop at h
    cases hc : (["Created", "Key", "Updated"] ++ ign).contains a.ObjectTypeAttribute.Name with
    | true =>
      rw [hc] at h
      simp only [if_true] at h
      have hnm : a.ObjectTypeAttribute.Name ∈ (["Created", "Key", "Updated"] ++ ign) := by
        have := List.elem_iff.mp hc
        simpa using this
      rw [ih m out h k]
      simp only [List.map_cons, List.mem_cons]
      by_cases hk : k = a.ObjectTypeAttribute.Name
      · subst hk
        tauto
      · tauto
    | false =>
      rw [hc] at h
      rw [if_neg Bool.false_ne_true] at h
      have hnm : a.ObjectTypeAttribute.Name ∉ (["Created", "Key", "Updated"] ++ ign) := by
        intro hmem
        have : (["Created", "Key", "Updated"] ++ ign).contains a.ObjectTypeAttribute.Name
            = true := List.elem_iff.mpr hmem
        rw [this] at hc
        exact absurd hc (by simp)
      cases hg : getAttributeValue a st with
      | none => rw [hg] at h; simp at h
      | some res =>
        rw [hg] at h
        dsimp only at h
        rw [ih _ out h k, goMapSet_keys_mem]
        simp only [List.map_cons, List.mem_cons]
        by_cases hk : k = a.ObjectTypeAttribute.Name
        · subst hk
          tauto
        · tauto

/-- With pairwise distinct IDs, the ID-indexed lookup finds exactly the table
entry that contributed the ID. -/
theorem find_id_self {table : List StatusTypeMetadata} {e : StatusTypeMetadata}
    (hn : (table.map StatusTypeMetadata.ID).Nodup) (he : e ∈ table) :
    table.find? (fun st => st.ID == e.ID) = some e := by
  have hs : (table.find? (fun st => st.ID == e.ID)).isSome := by
    rw [List.find?_isSome]
    exact ⟨e, he, by simp⟩
  obtain ⟨e₁, he₁⟩ := Option.isSome_iff_exists.mp hs
  have hmem := List.mem_of_find?_eq_some he₁
  have hpe : e₁.ID = e.ID := by simpa using List.find?_some he₁
  have heq : e₁ = e := List.inj_on_of_nodup_map hn hmem he hpe
  rw [he₁, heq]

/-- Claim C7, counterexample: `getObjectAttributeByName` crashes (Go
nil-pointer dereference, modelled `none`) on a list whose single entry has a
matching `Name` but a nil `ObjectType`, refuting "never crash on any input
list (including lists whose entries have a nil ObjectType)". -/
theorem attr_lookup_nil_objecttype_panics :
    getObjectAttributeByName "A" "T"
      [{ ID := "9", ObjectType := none, Name := "A", typeCode := 0 }] = none := by
  rfl

/-- Claim C7, amended: `getObjectTypeByName` always returns the first
name-match in list order, or the zero value when no match exists, and never
crashes; `getObjectAttributeByName` does the same for its double-name match
provided every entry whose `Name` matches carries a non-nil `ObjectType` —
an entry with a matching `Name` and nil `ObjectType` makes it panic. -/
theorem lookup_first_match_zero_value :
    ∀ (tname : String) (types : List ObjectTypeScheme) (aname otName : String)
      (defs : List ObjectTypeAttributeScheme),
    (∀ d ∈ defs, d.Name = aname → d.ObjectType ≠ none) →
    getObjectTypeByName tname types =
      (types.find? (fun o => o.Name == tname)).getD { Id := "", Name := "" } ∧
    getObjectAttributeByName aname otName defs =
      some ((defs.find? (attrMatches aname otName)).getD zeroTypeAttribute) :=
  fun tname types aname otName defs h =>
    ⟨getObjectTypeByName_eq_find tname types,
     getObjectAttributeByName_eq_find aname otName defs h⟩

/-- Witness for the amended C7 at the scenario schema. -/
theorem lookup_first_match_zero_value_witness :
    getObjectTypeByName "Host" [hostType] =
      (([hostType] : List ObjectTypeScheme).find? (fun o => o.Name == "Host")).getD
        { Id := "", Name := "" } ∧
    getObjectAttributeByName "Status" "Host" hostDefs =
      some ((hostDefs.find? (attrMatches "Status" "Host")).getD zeroTypeAttribute) :=
  lookup_first_match_zero_value "Host" [hostType] "Status" "Host" hostDefs (by decide)

/-- Claim C2, counterexample: with a status table whose two entries share the
ID "1", encoding the name "B" yields ID "1" but decoding "1" yields "A", so
the round trip fails for a statusName that is the `Name` of a table entry. -/
theorem status_roundtrip_fails_duplicate_ids :
    getConfigStatusIDByName "B" dupStatusTable = Except.ok "1" ∧
    getConfigStatusNameByID "1" dupStatusTable = "A" ∧ "A" ≠ "B" := by
  refine ⟨rfl, rfl, ?_⟩
  decide

/-- Claim C2, amended: provided the table's entries carry pairwise distinct
IDs, decoding the encoded ID of any statusName that is the `Name` of some
entry yields that statusName again. -/
theorem status_roundtrip_distinct_ids :
    ∀ (table : List StatusTypeMetadata) (statusName : String),
    (table.map StatusTypeMetadata.ID).Nodup →
    statusName ∈ table.map StatusTypeMetadata.Name →
    ∃ i, getConfigStatusIDByName statusName table = Except.ok i ∧
      getConfigStatusNameByID i table = statusName := by
  intro table s hn hs
  have hsome : (table.find? (fun st => st.Name == s)).isSome := by
    rw [List.find?_isSome]
    rcases List.mem_map.mp hs with ⟨e, he, hname⟩
    exact ⟨e, he, by simp [hname]⟩
  obtain ⟨e₀, he₀⟩ := Option.isSome_iff_exists.mp hsome
  have he₀mem := List.mem_of_find?_eq_some he₀
  have he₀name : e₀.Name = s := by simpa using List.find?_some he₀
  refine ⟨e₀.ID, ?_, ?_⟩
  · unfold getConfigStatusIDByName
    rw [he₀]
  · unfold getConfigStatusNameByID
    rw [find_id_self hn he₀mem]
    exact he₀name

/-- Witness for the amended C2 at the scenario table. -/
theorem status_roundtrip_distinct_ids_witness :
    ∃ i, getConfigStatusIDByName "Disabled" statusTable = Except.ok i ∧
      getConfigStatusNameByID i statusTable = "Disabled" :=
  status_roundtrip_distinct_ids statusTable "Disabled" (by decide) (by decide)

/-- Claim C3: for an attribute definition with type code 0 (default/text) or
1 (reference/search), the encoded payload carries the raw string unchanged
and decoding the read-back record (modelled by `remoteEchoRecord`) returns
it. -/
theorem text_reference_roundtrip :
    ∀ (name v objectType : String) (defs : List ObjectTypeAttributeScheme)
      (st : List StatusTypeMetadata) (d : ObjectTypeAttributeScheme),
    getObjectAttributeByName name objectType defs = some d →
    d.typeCode = 0 ∨ d.typeCode = 1 →
    ∃ p, returnAttributePayloadValue name v objectType defs st = some (Except.ok p) ∧
      getAttributeValue (remoteEchoRecord d p) st = some (Except.ok v) := by
  intro name v otn defs st d hl hd
  obtain ⟨dID, dOT, dName, dTC⟩ := d
  refine ⟨{ ObjectTypeAttributeID := dID, ObjectAttributeValues := [{ Value := v }] }, ?_, ?_⟩
  · unfold returnAttributePayloadValue
    rw [hl]
    rcases hd with h0 | h1
    · simp only at h0
      subst h0
      rfl
    · simp only at h1
      subst h1
      rfl
  · rcases hd with h0 | h1
    · simp only at h0
      subst h0
      rfl
    · simp only at h1
      subst h1
      rfl

/-- Witness for C3 at the type-0 attribute `external_ips`. -/
theorem text_reference_roundtrip_witness :
    ∃ p, returnAttributePayloadValue "external_ips" "1.2.3.4" "Host" hostDefs statusTable =
        some (Except.ok p) ∧
      getAttributeValue (remoteEchoRecord hostIpAttr p) statusTable =
        some (Except.ok "1.2.3.4") :=
  text_reference_roundtrip "external_ips" "1.2.3.4" "Host" hostDefs statusTable hostIpAttr
    (by decide) (Or.inl (by decide))

/-- Claim C6: every successful encode yields one payload record keyed by the
resolved definition's ID carrying a single value, and in particular the
scenario encode of Status=Enabled for Host yields the record with the Status
definition's ID and value "1". -/
theorem encode_payload_record_spec :
    (∀ (name v objectType : String) (defs : List ObjectTypeAttributeScheme)
        (st : List StatusTypeMetadata) (p : ObjectPayloadAttributeScheme),
      returnAttributePayloadValue name v objectType defs st = some (Except.ok p) →
      ∃ d, getObjectAttributeByName name objectType defs = some d ∧
        p.ObjectTypeAttributeID = d.ID ∧ p.ObjectAttributeValues.length = 1) ∧
    returnAttributePayloadValue "Status" "Enabled" "Host" hostDefs statusTable =
      some (Except.ok { ObjectTypeAttributeID := hostStatusAttr.ID
                        ObjectAttributeValues := [{ Value := "1" }] }) := by
  constructor
  · intro name v otn defs st p h
    exact returnAttributePayloadValue_ok_spec h
  · rfl

/-- Witness for the general part of C6 at the scenario input. -/
theorem encode_payload_record_spec_witness :
    ∃ d, getObjectAttributeByName "Status" "Host" hostDefs = some d ∧
      ({ ObjectTypeAttributeID := hostStatusAttr.ID
         ObjectAttributeValues := [{ Value := "1" }] } :
        ObjectPayloadAttributeScheme).ObjectTypeAttributeID = d.ID ∧
      ({ ObjectTypeAttributeID := hostStatusAttr.ID
         ObjectAttributeValues := [{ Value := "1" }] } :
        ObjectPayloadAttributeScheme).ObjectAttributeValues.length = 1 :=
  encode_payload_record_spec.1 "Status" "Enabled" "Host" hostDefs statusTable _ (by rfl)

/-- Claim C1, counterexample: with a planned attribute name matching no
definition of the schema, `Create` does not fail — it issues the remote
create call, and its payload carries the unresolvable name's value under the
empty `ObjectTypeAttributeID` of the zero-value definition. -/
theorem create_unresolved_attr_sent_remotely :
    (hostDefs.all (fun d => d.Name != "nonexistent")) = true ∧
    createRemoteCalls hostResource unresolvedPlan =
      some [RemoteCall.createReq "ws"
        { ObjectTypeID := "t1"
          Attributes := [{ ObjectTypeAttributeID := ""
                           ObjectAttributeValues := [{ Value := "x" }] }]
          HasAvatar := false
          AvatarUUID := "" }] := by
  exact ⟨by decide, rfl⟩

/-- Claim C1, amended: a planned attribute name resolving to no definition is
not rejected client-side; the encoder returns the zero-ID payload record
carrying the raw value, and `Create` issues the remote create call including
that record (the failure is deferred to the remote API). -/
theorem create_unresolved_attr_zero_id_payload :
    ∀ (r : objectResource) (plan : objectResourceModel) (name v : String),
    plan.Attributes = [(name, v)] →
    (∀ d ∈ r.objectSchemaAttributes, d.Name ≠ name) →
    returnAttributePayloadValue name v
        (getObjectTypeByName plan.TypeName r.objectSchemaTypes).Name
        r.objectSchemaAttributes r.configStatusType =
      some (Except.ok { ObjectTypeAttributeID := ""
                        ObjectAttributeValues := [{ Value := v }] }) ∧
    createRemoteCalls r plan =
      some [RemoteCall.createReq r.workspaceId
        { ObjectTypeID := (getObjectTypeByName plan.TypeName r.objectSchemaTypes).Id
          Attributes := [{ ObjectTypeAttributeID := ""
                           ObjectAttributeValues := [{ Value := v }] }]
          HasAvatar := plan.HasAvatar
          AvatarUUID := plan.AvatarUuid }] := by
  intro r plan name v hattrs hnores
  have hzero := getObjectAttributeByName_no_name_match name
    (getObjectTypeByName plan.TypeName r.objectSchemaTypes).Name
    r.objectSchemaAttributes hnores
  have henc : returnAttributePayloadValue name v
      (getObjectTypeByName plan.TypeName r.objectSchemaTypes).Name
      r.objectSchemaAttributes r.configStatusType =
      some (Except.ok { ObjectTypeAttributeID := ""
                        ObjectAttributeValues := [{ Value := v }] }) := by
    unfold returnAttributePayloadValue
    rw [hzero]
    rfl
  refine ⟨henc, ?_⟩
  have hb : buildAttributes plan.Attributes
      (getObjectTypeByName plan.TypeName r.objectSchemaTypes).Name
      r.objectSchemaAttributes r.configStatusType =
      some (Except.ok [{ ObjectTypeAttributeID := ""
                         ObjectAttributeValues := [{ Value := v }] }]) := by
    rw [hattrs]
    unfold buildAttributes
    rw [henc]
    rfl
  unfold createRemoteCalls
  rw [hb]

/-- Witness for the amended C1 at the concrete unresolvable plan. -/
theorem create_unresolved_attr_zero_id_payload_witness :
    returnAttributePayloadValue "nonexistent" "x"
        (getObjectTypeByName unresolvedPlan.TypeName hostResource.objectSchemaTypes).Name
        hostResource.objectSchemaAttributes hostResource.configStatusType =
      some (Except.ok { ObjectTypeAttributeID := ""
                        ObjectAttributeValues := [{ Value := "x" }] }) ∧
    createRemoteCalls hostResource unresolvedPlan =
      some [RemoteCall.createReq hostResource.workspaceId
        { ObjectTypeID := (getObjectTypeByName unresolvedPlan.TypeName
            hostResource.objectSchemaTypes).Id
          Attributes := [{ ObjectTypeAttributeID := ""
                           ObjectAttributeValues := [{ Value := "x" }] }]
          HasAvatar := unresolvedPlan.HasAvatar
          AvatarUUID := unresolvedPlan.AvatarUuid }] :=
  create_unresolved_attr_zero_id_payload hostResource unresolvedPlan "nonexistent" "x"
    rfl (by decide)

/-- Claim C5: `Update` never decides to issue a remote delete, and the single
update call it issues (when encoding succeeds) carries exactly one payload
record per planned attribute, in order, each keyed by the resolved
definition's ID with a single value. -/
theorem update_payload_matches_plan_no_delete :
    ∀ (r : objectResource) (plan : objectResourceModel) (calls : List RemoteCall),
    updateRemoteCalls r plan = some calls →
    (∀ ws i, RemoteCall.deleteReq ws i ∉ calls) ∧
    (∀ ws i payload, RemoteCall.updateReq ws i payload ∈ calls →
      List.Forall₂ (fun (kv : String × String) (a : ObjectPayloadAttributeScheme) => ∃ d,
          getObjectAttributeByName kv.1
            (getObjectTypeByName plan.TypeName r.objectSchemaTypes).Name
            r.objectSchemaAttributes = some d ∧
          a.ObjectTypeAttributeID = d.ID ∧ a.ObjectAttributeValues.length = 1)
        plan.Attributes payload.Attributes) := by
  intro r plan calls h
  unfold updateRemoteCalls at h
  cases hb : buildAttributes plan.Attributes
      (getObjectTypeByName plan.TypeName r.objectSchemaTypes).Name
      r.objectSchemaAttributes r.configStatusType with
  | none => rw [hb] at h; simp at h
  | some res =>
    rw [hb] at h
    cases res with
    | error e =>
      dsimp only at h
      simp only [Option.some.injEq] at h
      subst h
      exact ⟨fun ws i hmem => by simp at hmem, fun ws i payload hmem => by simp at hmem⟩
    | ok attrs =>
      dsimp only at h
      simp only [Option.some.injEq] at h
      subst h
      constructor
      · intro ws i hmem
        simp at hmem
      · intro ws i payload hmem
        simp only [List.mem_singleton, RemoteCall.updateReq.injEq] at hmem
        obtain ⟨h₁, h₂, h₃⟩ := hmem
        subst h₃
        exact buildAttributes_ok_forall2 hb

/-- Witness for C5: the update of the two-attribute plan issues no delete. -/
theorem update_payload_matches_plan_no_delete_witness :
    RemoteCall.deleteReq "ws" "obj1" ∉
      [RemoteCall.updateReq "ws" "obj1"
        { ObjectTypeID := "t1"
          Attributes := [{ ObjectTypeAttributeID := "42"
                           ObjectAttributeValues := [{ Value := "1" }] },
                         { ObjectTypeAttributeID := "43"
                           ObjectAttributeValues := [{ Value := "1.2.3.4" }] }]
          HasAvatar := false
          AvatarUUID := "" }] :=
  (update_payload_matches_plan_no_delete hostResource statusPlan _ (by rfl)).1 "ws" "obj1"

/-- Claim C4: after a successful `Read`, the rebuilt attribute map's keys are
exactly the remote attribute names outside the configured ignore-keys plus
the fixed `Created`, `Key`, `Updated`. -/
theorem read_attribute_map_keys :
    ∀ (r : objectResource) (state : objectResourceModel) (object : ObjectScheme)
      (attrs : List ObjectAttributeScheme) (state₁ : objectResourceModel),
    readResult r state object attrs = some state₁ →
    ∀ name, name ∈ state₁.Attributes.map Prod.fst ↔
      (name ∈ attrs.map (fun a => a.ObjectTypeAttribute.Name) ∧
       name ∉ (["Created", "Key", "Updated"] ++ r.ignoreKeys)) := by
  intro r state object attrs state₁ h name
  unfold readResult at h
  cases hra : readAttributes attrs r.ignoreKeys r.configStatusType with
  | none => rw [hra] at h; simp at h
  | some m =>
    rw [hra] at h
    simp only [Option.some.injEq] at h
    subst h
    have hkeys := readAttributesLoop_keys r.ignoreKeys r.configStatusType attrs [] m hra name
    simpa using hkeys

/-- Witness for C4 at a concrete read: `external_ips` is kept, while the
reserved `Created` and the configured `CI Class` are dropped. -/
theorem read_attribute_map_keys_witness :
    "external_ips" ∈
        ([("external_ips", "1.2.3.4")] : List (String × String)).map Prod.fst ↔
      ("external_ips" ∈
        ([ipRecord, createdRecord, ciRecord].map (fun a => a.ObjectTypeAttribute.Name)) ∧
       "external_ips" ∉ (["Created", "Key", "Updated"] ++ hostResource.ignoreKeys)) :=
  read_attribute_map_keys hostResource staleState freshObject
    [ipRecord, createdRecord, ciRecord]
    { WorkspaceId := "ws", GlobalId := "g", Id := "obj1", Label := "lab", ObjectKey := "key"
      Created := "oldC", Updated := "oldU", HasAvatar := true, TypeName := "Host"
      Attributes := [("external_ips", "1.2.3.4")], AvatarUuid := "" }
    (by rfl) "external_ips"

/-- Claim C8, counterexample: a remote attribute of unsupported type code 5
decodes with an error, yet `Read` keeps its name in the rebuilt map bound to
the empty string — it is not skipped. -/
theorem read_decode_error_kept_cex :
    getAttributeValue badRecord statusTable =
      some (Except.error "unsupported attribute type: 5") ∧
    readAttributes [badRecord] [] statusTable = some [("X", "")] := by
  exact ⟨rfl, rfl⟩

/-- Claim C8, amended: a non-ignored remote attribute whose decode errors is
kept in the rebuilt attribute map with the empty string value (the error is
discarded, not surfaced, and `Read` continues). -/
theorem read_decode_error_kept_empty_value :
    ∀ (rec : ObjectAttributeScheme) (ign : List String) (st : List StatusTypeMetadata)
      (e : String),
    getAttributeValue rec st = some (Except.error e) →
    rec.ObjectTypeAttribute.Name ∉ (["Created", "Key", "Updated"] ++ ign) →
    readAttributes [rec] ign st = some [(rec.ObjectTypeAttribute.Name, "")] := by
  intro rec ign st e hg hn
  have hc : ((["Created", "Key", "Updated"] ++ ign).contains rec.ObjectTypeAttribute.Name)
      = false := by
    rw [← Bool.not_eq_true]
    intro hcc
    exact hn (List.elem_iff.mp hcc)
  unfold readAttributes readAttributesLoop
  rw [hc, if_neg Bool.false_ne_true, hg]
  rfl

/-- Witness for the amended C8 at the unsupported-type record. -/
theorem read_decode_error_kept_empty_value_witness :
    readAttributes [badRecord] ["CI Class"] statusTable = some [("X", "")] :=
  read_decode_error_kept_empty_value badRecord ["CI Class"] statusTable
    "unsupported attribute type: 5" (by rfl) (by decide)

/-- Claim C9, counterexample: a successful `Read` leaves `Created` and
`Updated` at their prior state values instead of refreshing them from the
remote object. -/
theorem read_created_updated_not_refreshed :
    readResult hostResource staleState freshObject [] = some readStaleResult ∧
    readStaleResult.Created ≠ freshObject.Created ∧
    readStaleResult.Updated ≠ freshObject.Updated := by
  refine ⟨rfl, ?_, ?_⟩ <;> decide

/-- Claim C9, amended: a successful `Read` refreshes `WorkspaceId`,
`GlobalId`, `Id`, `Label`, `ObjectKey`, `HasAvatar` and `Type` from the
remote object, while `Created`, `Updated` and `AvatarUuid` keep their prior
state values. -/
theorem read_refreshed_fields :
    ∀ (r : objectResource) (state : objectResourceModel) (object : ObjectScheme)
      (attrs : List ObjectAttributeScheme) (state₁ : objectResourceModel),
    readResult r state object attrs = some state₁ →
    state₁.WorkspaceId = object.WorkspaceId ∧ state₁.GlobalId = object.GlobalId ∧
    state₁.Id = object.ID ∧ state₁.Label = object.Label ∧
    state₁.ObjectKey = object.ObjectKey ∧ state₁.HasAvatar = object.HasAvatar ∧
    state₁.TypeName = object.ObjectType.Name ∧
    state₁.Created = state.Created ∧ state₁.Updated = state.Updated ∧
    state₁.AvatarUuid = state.AvatarUuid := by
  intro r state object attrs state₁ h
  unfold readResult at h
  cases hra : readAttributes attrs r.ignoreKeys r.configStatusType with
  | none => rw [hra] at h; simp at h
  | some m =>
    rw [hra] at h
    simp only [Option.some.injEq] at h
    subst h
    simp

/-- Witness for the amended C9 at the concrete read fixture. -/
theorem read_refreshed_fields_witness :
    readStaleResult.WorkspaceId = freshObject.WorkspaceId ∧
    readStaleResult.GlobalId = freshObject.GlobalId ∧
    readStaleResult.Id = freshObject.ID ∧
    readStaleResult.Label = freshObject.Label ∧
    readStaleResult.ObjectKey = freshObject.ObjectKey ∧
    readStaleResult.HasAvatar = freshObject.HasAvatar ∧
    readStaleResult.TypeName = freshObject.ObjectType.Name ∧
    readStaleResult.Created = staleState.Created ∧
    readStaleResult.Updated = staleState.Updated ∧
    readStaleResult.AvatarUuid = staleState.AvatarUuid :=
  read_refreshed_fields hostResource staleState freshObject [] readStaleResult (by rfl)

/-- Claim C10, counterexample: a type-7 record with a non-empty value list
still panics when the first value's `Status` pointer is nil, refuting that a
non-empty list suffices for the supported type codes to return without error. -/
theorem getAttributeValue_nil_status_panics :
    nilStatusRecord.ObjectTypeAttribute.typeCode = 7 ∧
    nilStatusRecord.ObjectAttributeValues ≠ [] ∧
    getAttributeValue nilStatusRecord statusTable = none := by
  refine ⟨rfl, ?_, rfl⟩
  decide

/-- Claim C10, amended: `getAttributeValue` indexes the first value for type
codes 0, 1 and 7 — panicking on an empty list, and for type 7 additionally on
a nil `Status` of the first value; with those preconditions met it returns a
nil error for codes 0, 1 and 7, and for any other code it returns the
unsupported-type error without reading the value list. -/
theorem getAttributeValue_decode_spec :
    ∀ (rec : ObjectAttributeScheme) (st : List StatusTypeMetadata),
    ((rec.ObjectTypeAttribute.typeCode = 0 ∨ rec.ObjectTypeAttribute.typeCode = 1 ∨
        rec.ObjectTypeAttribute.typeCode = 7) →
      rec.ObjectAttributeValues = [] → getAttributeValue rec st = none) ∧
    (∀ v rest, rec.ObjectAttributeValues = v :: rest →
      (rec.ObjectTypeAttribute.typeCode = 0 →
        getAttributeValue rec st = some (Except.ok v.Value)) ∧
      (rec.ObjectTypeAttribute.typeCode = 1 →
        getAttributeValue rec st = some (Except.ok v.SearchValue)) ∧
      (rec.ObjectTypeAttribute.typeCode = 7 → v.Status = none →
        getAttributeValue rec st = none) ∧
      (∀ s, rec.ObjectTypeAttribute.typeCode = 7 → v.Status = some s →
        getAttributeValue rec st = some (Except.ok (getConfigStatusNameByID s.ID st)))) ∧
    (rec.ObjectTypeAttribute.typeCode ≠ 0 → rec.ObjectTypeAttribute.typeCode ≠ 1 →
      rec.ObjectTypeAttribute.typeCode ≠ 7 →
      getAttributeValue rec st = some (Except.error
        ("unsupported attribute type: " ++ toString rec.ObjectTypeAttribute.typeCode))) := by
  intro rec st
  obtain ⟨⟨dID, dOT, dName, tc⟩, vals⟩ := rec
  refine ⟨?_, ?_, ?_⟩
  · intro htc hvals
    simp only at htc hvals
    subst hvals
    rcases htc with rfl | rfl | rfl <;> rfl
  · intro v rest hvals
    simp only at hvals
    subst hvals
    refine ⟨?_, ?_, ?_, ?_⟩
    · intro h0
      simp only at h0
      subst h0
      rfl
    · intro h1
      simp only at h1
      subst h1
      rfl
    · intro h7 hs
      simp only at h7
      subst h7
      obtain ⟨vV, vSV, vStatus⟩ := v
      simp only at hs
      subst hs
      rfl
    · intro s h7 hs
      simp only at h7
      subst h7
      obtain ⟨vV, vSV, vStatus⟩ := v
      simp only at hs
      subst hs
      rfl
  · intro h0 h1 h7
    simp only at h0 h1 h7
    unfold getAttributeValue
    split
    · rename_i heq
      exact absurd heq h1
    · rename_i heq
      exact absurd heq h0
    · rename_i heq
      exact absurd heq h7
    · rfl

/-- Witness for the amended C10 at a type-0 record with one value. -/
theorem getAttributeValue_decode_spec_witness :
    getAttributeValue ipRecord statusTable = some (Except.ok "1.2.3.4") :=
  ((getAttributeValue_decode_spec ipRecord statusTable).2.1
    { Value := "1.2.3.4", SearchValue := "1.2.3.4", Status := none } [] rfl).1 rfl
